import Mathlib

/-!
# go-rules: the evaluator of `evaluator.go`

A shallow embedding of the recursive rule evaluator (`Evaluate`, `evaluate`,
`compute` and the nine `computeXX` functions) together with the Go values it
compares, followed by the properties established about it.

Conventions of the embedding:

* a Go result pair `(v, err)` is an `Except Error _`: `.error err` when
  `err != nil`, `.ok v` otherwise;
* `compute` and the `computeXX` functions return `*BoolLiteral`; the embedding
  returns the `Val` field of that literal;
* the Go standard library (`time.Parse`, `time.ParseDuration`) and the
  repository function `toLiteral`, none of which is defined in `evaluator.go`,
  are fields of a `Runtime` record over which every definition and theorem is
  parametric.
-/

namespace GoRules

deriving instance DecidableEq for Except

/-! ## Go values -/

/-- Go `float64`: an IEEE-754 binary64 value given by its sign bit, its 11-bit
biased exponent and its 52-bit fraction.  Well-formed values have
`exponent < 2048` and `fraction < 2 ^ 52`. -/
structure Float64 where
  sign : Bool
  exponent : Nat
  fraction : Nat
deriving DecidableEq, Repr

namespace Float64

/-- NaN: all exponent bits set and a non-zero fraction. -/
def isNaN (x : Float64) : Bool :=
  x.exponent == 2047 && x.fraction != 0

/-- Magnitude bits of `x`: the 63 low bits of the bit pattern, biased exponent
above fraction.  IEEE-754 lays the fields out so that the non-NaN values are
ordered as the sign-magnitude integers of their bit patterns, infinity above
every finite value. -/
def magnitude (x : Float64) : Nat :=
  x.exponent * 2 ^ 52 + x.fraction

/-- Sign-magnitude integer of the bit pattern of `x`; both zeros give `0`. -/
def scaled (x : Float64) : Int :=
  if x.sign then -(x.magnitude : Int) else (x.magnitude : Int)

/-- Go `x == y` on `float64`: false when either operand is NaN. -/
def eq (x y : Float64) : Bool :=
  !x.isNaN && !y.isNaN && decide (x.scaled = y.scaled)

/-- Go `x != y` on `float64`: the negation of `x == y`, so true when either operand is NaN. -/
def ne (x y : Float64) : Bool :=
  !(eq x y)

/-- Go `x < y` on `float64`: false when either operand is NaN. -/
def lt (x y : Float64) : Bool :=
  !x.isNaN && !y.isNaN && decide (x.scaled < y.scaled)

/-- Go `x <= y` on `float64`: false when either operand is NaN. -/
def le (x y : Float64) : Bool :=
  !x.isNaN && !y.isNaN && decide (x.scaled ≤ y.scaled)

/-- Go `x > y` on `float64`. -/
def gt (x y : Float64) : Bool :=
  lt y x

/-- Go `x >= y` on `float64`. -/
def ge (x y : Float64) : Bool :=
  le y x

end Float64

/-- Go `time.Time`.  The struct `{wall, ext, loc}` of the standard library
determines and is determined by: the instant (`sec` seconds and `nsec`
nanoseconds), the monotonic clock reading when the value carries one
(`time.Now()` does, a parsed time does not), and the `*Location` pointer
(`loc`, with `0` for the nil pointer that stands for UTC).  Go `==` on
`time.Time` is struct equality, which is equality of these four fields. -/
structure Time where
  sec : Int
  nsec : Nat
  mono : Option Int
  loc : Nat
deriving DecidableEq, Repr

namespace Time

/-- Go `t.Before(u)`: by monotonic readings when both values carry one, by
instant otherwise.  The location takes no part. -/
def Before (t u : Time) : Bool :=
  match t.mono, u.mono with
  | some a, some b => decide (a < b)
  | _, _ => decide (t.sec < u.sec) || (decide (t.sec = u.sec) && decide (t.nsec < u.nsec))

/-- Go `t.After(u)`: by monotonic readings when both values carry one, by
instant otherwise.  The location takes no part. -/
def After (t u : Time) : Bool :=
  match t.mono, u.mono with
  | some a, some b => decide (a > b)
  | _, _ => decide (t.sec > u.sec) || (decide (t.sec = u.sec) && decide (t.nsec > u.nsec))

/-- Go `t == dt` for a `dt` that a call of `time.Parse` has just returned.  When
that call allocated a new `*Location` for `dt` (`fresh`), the pointer differs
from the pointer held by every value made before the call, `t` included, and
the struct comparison is false; otherwise it is struct equality. -/
def eqParsed (fresh : Bool) (t dt : Time) : Bool :=
  !fresh && t == dt

/-- Go `t.Equal(u)`: the two values denote the same instant; by monotonic
readings when both values carry one, by instant otherwise.  The location takes
no part. -/
def Equal (t u : Time) : Bool :=
  match t.mono, u.mono with
  | some a, some b => decide (a = b)
  | _, _ => decide (t.sec = u.sec) && decide (t.nsec = u.nsec)

end Time

/-! ## Expression model

The type declarations live outside `evaluator.go`; their shape is fixed by the
type switches and field accesses of the evaluator. -/

/-- Modelled from the spec: the literal node types (`NumberLiteral`,
`StringLiteral`, `BoolLiteral`, `TimeLiteral`, `DurationLiteral`,
`NumberSliceLiteral`, `StringSliceLiteral`), whose declarations are not in
`evaluator.go`.  Each carries the `Val` field the evaluator reads; a
`time.Duration` is a signed count of nanoseconds.  A Go string holds UTF-8 text
and is ordered bytewise, which on UTF-8 text is the code-point order of
`String`. -/
inductive Literal where
  | number (val : Float64)
  | string (val : String)
  | bool (val : Bool)
  | time (val : Time)
  | duration (val : Int)
  | numberSlice (val : List Float64)
  | stringSlice (val : List String)
deriving DecidableEq, Repr

/-- Dynamic type of a literal. -/
inductive Variant where
  | number | string | bool | time | duration | numberSlice | stringSlice
deriving DecidableEq, Repr

/-- Dynamic type of a literal, as a Go type switch sees it. -/
def Literal.variant : Literal → Variant
  | .number _ => .number
  | .string _ => .string
  | .bool _ => .bool
  | .time _ => .time
  | .duration _ => .duration
  | .numberSlice _ => .numberSlice
  | .stringSlice _ => .stringSlice

/-- Modelled from the spec: the operator type `Op`, whose declaration is not in
`evaluator.go`.  The nine constants are those `compute` switches on; `other`
is any value of the type outside them. -/
inductive Op where
  | AND | OR | EQ | NEQ | LT | LTE | GT | GTE | IN
  | other (code : Nat)
deriving DecidableEq, Repr

/-- Modelled from the spec: the `Expr` interface and its node types, whose
declarations are not in `evaluator.go`.  `nil` is the nil interface value,
`parent` is `*ParentExpr`, `binary` is `*BinaryExpr`, `ident` is `*Ident`. -/
inductive Expr where
  | nil
  | literal (l : Literal)
  | ident (val : String)
  | parent (expr : Expr)
  | binary (op : Op) (lhs rhs : Expr)
deriving DecidableEq, Repr

/-- Go `error` values met by the evaluator. -/
inductive Error where
  /-- Value of `errors.New(msg)`. -/
  | errorsNew (msg : String)
  /-- Value of `fmt.Errorf("param %s not found", varName)`. -/
  | paramNotFound (varName : String)
  /-- Value of `fmt.Errorf("cannot convert \"%s\" to %s", rhs.String(), lhs.Type())`. -/
  | cannotConvert (rhs lhs : Literal)
  /-- An error value made outside `evaluator.go`, with its message. -/
  | library (msg : String)
deriving DecidableEq, Repr

/-- The functions the evaluator calls and does not define: `toLiteral` of this
repository (conversion of a native parameter value of type `V`), and
`time.Parse(time.RFC3339, _)` and `time.ParseDuration` of the Go standard
library.

A call of `time.Parse` is not a function of the string alone: for a zone offset
that is neither UTC, nor the local zone, nor an offset whose location the
library keeps, every call allocates a new `*Location`.  `timeParse s` is the
value a call returns and `freshLocation s` tells whether its location was
allocated by that call; which strings those are depends on the host (local
zone, library version). -/
structure Runtime (V : Type) where
  toLiteral : V → Except Error Literal
  timeParse : String → Except Error Time
  freshLocation : String → Bool
  parseDuration : String → Except Error Int

/-- Go `map[string]interface{}`: `params[name]` with its presence flag. -/
abbrev Params (V : Type) := String → Option V

/-! ## The evaluator (`evaluator.go`) -/

/-- The shared last statement of the comparison functions:
`return nil, fmt.Errorf("cannot convert \"%s\" to %s", rhs.String(), lhs.Type())`. -/
def cannotConvert (rhs lhs : Literal) : Except Error Bool :=
  .error (.cannotConvert rhs lhs)

/-- Function `computeOR` of `evaluator.go`. -/
def computeOR (lhs rhs : Literal) : Except Error Bool :=
  match lhs with
  | .bool l =>
    match rhs with
    | .bool r => .ok (l || r)
    | _ => .ok true
  | _ => .ok true

/-- Function `computeAND` of `evaluator.go`. -/
def computeAND (lhs rhs : Literal) : Except Error Bool :=
  match lhs with
  | .bool l =>
    match rhs with
    | .bool r => .ok (l && r)
    | _ => .ok true
  | _ => .ok true

/-- Function `computeEQ` of `evaluator.go`. -/
def computeEQ {V : Type} (rt : Runtime V) (lhs rhs : Literal) : Except Error Bool :=
  match lhs with
  | .number l =>
    match rhs with
    | .number r => .ok (Float64.eq l r)
    | _ => cannotConvert rhs lhs
  | .string l =>
    match rhs with
    | .string r => .ok (l == r)
    | _ => cannotConvert rhs lhs
  | .bool l =>
    match rhs with
    | .bool r => .ok (l == r)
    | _ => cannotConvert rhs lhs
  | .time l =>
    match rhs with
    | .time tr => .ok (l == tr)
    | .string sr =>
      match rt.timeParse sr with
      | .error err => .error err
      | .ok dt => .ok (Time.eqParsed (rt.freshLocation sr) l dt)
    | _ => cannotConvert rhs lhs
  | .duration l =>
    match rhs with
    | .string rv =>
      match rt.parseDuration rv with
      | .error err => .error err
      | .ok v => .ok (decide (l = v))
    | _ => cannotConvert rhs lhs
  | _ => cannotConvert rhs lhs

/-- Function `computeNEQ` of `evaluator.go`. -/
def computeNEQ {V : Type} (rt : Runtime V) (lhs rhs : Literal) : Except Error Bool :=
  match lhs with
  | .number l =>
    match rhs with
    | .number r => .ok (Float64.ne l r)
    | _ => cannotConvert rhs lhs
  | .string l =>
    match rhs with
    | .string r => .ok (l != r)
    | _ => cannotConvert rhs lhs
  | .bool l =>
    match rhs with
    | .bool r => .ok (l != r)
    | _ => cannotConvert rhs lhs
  | .time l =>
    match rhs with
    | .time tr => .ok (l != tr)
    | .string sr =>
      match rt.timeParse sr with
      | .error err => .error err
      | .ok dt => .ok (!Time.eqParsed (rt.freshLocation sr) l dt)
    | _ => cannotConvert rhs lhs
  | .duration l =>
    match rhs with
    | .string rv =>
      match rt.parseDuration rv with
      | .error err => .error err
      | .ok v => .ok (decide (l ≠ v))
    | _ => cannotConvert rhs lhs
  | _ => cannotConvert rhs lhs

/-- Function `computeLT` of `evaluator.go`. -/
def computeLT {V : Type} (rt : Runtime V) (lhs rhs : Literal) : Except Error Bool :=
  match lhs with
  | .number l =>
    match rhs with
    | .number r => .ok (Float64.lt l r)
    | _ => cannotConvert rhs lhs
  | .string l =>
    match rhs with
    | .string r => .ok (decide (l < r))
    | _ => cannotConvert rhs lhs
  | .time l =>
    match rhs with
    | .time tr => .ok (l.Before tr)
    | .string sr =>
      match rt.timeParse sr with
      | .error err => .error err
      | .ok dt => .ok (l.Before dt)
    | _ => cannotConvert rhs lhs
  | .duration l =>
    match rhs with
    | .string rv =>
      match rt.parseDuration rv with
      | .error err => .error err
      | .ok v => .ok (decide (l < v))
    | _ => cannotConvert rhs lhs
  | _ => cannotConvert rhs lhs

/-- Function `computeLTE` of `evaluator.go`. -/
def computeLTE {V : Type} (rt : Runtime V) (lhs rhs : Literal) : Except Error Bool :=
  match lhs with
  | .number l =>
    match rhs with
    | .number r => .ok (Float64.le l r)
    | _ => cannotConvert rhs lhs
  | .string l =>
    match rhs with
    | .string r => .ok (decide (l ≤ r))
    | _ => cannotConvert rhs lhs
  | .time l =>
    match rhs with
    | .time tr => .ok (l.Before tr)
    | .string sr =>
      match rt.timeParse sr with
      | .error err => .error err
      | .ok dt => .ok (l.Before dt)
    | _ => cannotConvert rhs lhs
  | .duration l =>
    match rhs with
    | .string rv =>
      match rt.parseDuration rv with
      | .error err => .error err
      | .ok v => .ok (decide (l ≤ v))
    | _ => cannotConvert rhs lhs
  | _ => cannotConvert rhs lhs

/-- Function `computeGT` of `evaluator.go`. -/
def computeGT {V : Type} (rt : Runtime V) (lhs rhs : Literal) : Except Error Bool :=
  match lhs with
  | .number l =>
    match rhs with
    | .number r => .ok (Float64.gt l r)
    | _ => cannotConvert rhs lhs
  | .string l =>
    match rhs with
    | .string r => .ok (decide (l > r))
    | _ => cannotConvert rhs lhs
  | .time l =>
    match rhs with
    | .time tr => .ok (l.After tr)
    | .string sr =>
      match rt.timeParse sr with
      | .error err => .error err
      | .ok dt => .ok (l.After dt)
    | _ => cannotConvert rhs lhs
  | .duration l =>
    match rhs with
    | .string rv =>
      match rt.parseDuration rv with
      | .error err => .error err
      | .ok v => .ok (decide (l > v))
    | _ => cannotConvert rhs lhs
  | _ => cannotConvert rhs lhs

/-- Function `computeGTE` of `evaluator.go`. -/
def computeGTE {V : Type} (rt : Runtime V) (lhs rhs : Literal) : Except Error Bool :=
  match lhs with
  | .number l =>
    match rhs with
    | .number r => .ok (Float64.ge l r)
    | _ => cannotConvert rhs lhs
  | .string l =>
    match rhs with
    | .string r => .ok (decide (l ≥ r))
    | _ => cannotConvert rhs lhs
  | .time l =>
    match rhs with
    | .time tr => .ok (l.After tr)
    | .string sr =>
      match rt.timeParse sr with
      | .error err => .error err
      | .ok dt => .ok (l.After dt)
    | _ => cannotConvert rhs lhs
  | .duration l =>
    match rhs with
    | .string rv =>
      match rt.parseDuration rv with
      | .error err => .error err
      | .ok v => .ok (decide (l ≥ v))
    | _ => cannotConvert rhs lhs
  | _ => cannotConvert rhs lhs

/-- The loop of `computeIN` over a slice of numbers:
`res := false; for _, v := range r.Val { if l.Val == v { res = true; break } }`. -/
def rangeNumber (l : Float64) : List Float64 → Bool
  | [] => false
  | v :: rest => if Float64.eq l v then true else rangeNumber l rest

/-- The loop of `computeIN` over a slice of strings:
`res := false; for _, v := range r.Val { if l.Val == v { res = true; break } }`. -/
def rangeString (l : String) : List String → Bool
  | [] => false
  | v :: rest => if l == v then true else rangeString l rest

/-- Function `computeIN` of `evaluator.go`. -/
def computeIN (lhs rhs : Literal) : Except Error Bool :=
  match lhs with
  | .number l =>
    match rhs with
    | .numberSlice r => .ok (rangeNumber l r)
    | _ => cannotConvert rhs lhs
  | .string l =>
    match rhs with
    | .stringSlice r => .ok (rangeString l r)
    | _ => cannotConvert rhs lhs
  | _ => cannotConvert rhs lhs

/-- Function `compute` of `evaluator.go`. -/
def compute {V : Type} (rt : Runtime V) (op : Op) (lhs rhs : Literal) : Except Error Bool :=
  match op with
  | .AND => computeAND lhs rhs
  | .OR => computeOR lhs rhs
  | .EQ => computeEQ rt lhs rhs
  | .NEQ => computeNEQ rt lhs rhs
  | .LT => computeLT rt lhs rhs
  | .LTE => computeLTE rt lhs rhs
  | .GT => computeGT rt lhs rhs
  | .GTE => computeGTE rt lhs rhs
  | .IN => computeIN lhs rhs
  | .other _ => .error (.errorsNew "invalid operator")

/-- Function `evaluate` of `evaluator.go`: the recursive reduction of a tree to a literal. -/
def evaluate {V : Type} (rt : Runtime V) (expr : Expr) (params : Params V) : Except Error Literal :=
  match expr with
  | .nil => .error (.errorsNew "invalid expression")
  | .parent e => evaluate rt e params
  | .binary op lhs rhs =>
    match evaluate rt lhs params with
    | .error err => .error err
    | .ok l =>
      match evaluate rt rhs params with
      | .error err => .error err
      | .ok r =>
        match compute rt op l r with
        | .error err => .error err
        | .ok val => .ok (.bool val)
  | .ident varName =>
    match params varName with
    | none => .error (.paramNotFound varName)
    | some varVal => rt.toLiteral varVal
  | .literal l => .ok l

/-- Function `Evaluate` of `evaluator.go`: the public entry point. -/
def Evaluate {V : Type} (rt : Runtime V) (expr : Expr) (params : Params V) : Except Error Bool :=
  match expr with
  | .nil => .error (.errorsNew "invalid input expression")
  | _ =>
    match evaluate rt expr params with
    | .error err => .error err
    | .ok (.bool val) => .ok val
    | .ok _ => .error (.errorsNew "invalid result expression")

/-! ## Rule documents and a runtime for concrete evaluations -/

/-- Modelled from the spec: the composite-node construction of the rule parser
(not in `evaluator.go`), a left fold of the children into nested binary nodes.
The first two children form the innermost node, each later child is the right
operand of a new node around the accumulated one, and a single child stands for
itself. -/
def foldComposite (op : Op) : Expr → List Expr → Expr
  | first, [] => first
  | first, child :: rest => foldComposite op (.binary op first child) rest

/-- Modelled from the spec: a comparison node of a rule document, variable on
the left and constant on the right, as the rule parser (not in `evaluator.go`)
builds it. -/
def comparison (var : String) (op : Op) (val : Literal) : Expr :=
  .binary op (.ident var) (.literal val)

/-- The `float64` of a positive integer `2 ^ e + r` with `r < 2 ^ e` and
`e ≤ 52`, which is exact: biased exponent `1023 + e`, fraction `r` shifted to
the top of the 52 bits. -/
def Float64.ofBits (e r : Nat) : Float64 :=
  ⟨false, 1023 + e, r * 2 ^ (52 - e)⟩

/-- Results of `time.Parse(time.RFC3339, s)` on four strings: the timestamp
literal of `evaluator_test.go`, the same instant written in UTC, a timestamp at
the offset +05:30, and a string that is no timestamp.  The instant of the first
two is 1553747983 s after the Unix epoch, that of the third 1553753383 s.  The
first value is located in a zone at +07:00, a non-nil `*Location` written `7`
here; the second is located in UTC, the nil `*Location` written `0`; the third
is located in a zone at +05:30, written `530`. -/
def timeTable : List (String × Except Error Time) :=
  [("2019-03-28T11:39:43+07:00", .ok ⟨1553747983, 0, none, 7⟩),
   ("2019-03-28T04:39:43Z", .ok ⟨1553747983, 0, none, 0⟩),
   ("2019-03-28T11:39:43+05:30", .ok ⟨1553753383, 0, none, 530⟩),
   ("yesterday", .error (.library
      "parsing time \"yesterday\" as \"2006-01-02T15:04:05Z07:00\": cannot parse \"yesterday\" as \"2006\""))]

/-- The strings of `timeTable` on which a call of `time.Parse` allocates a new
`*Location`, on a host whose local zone is not at +05:30: the offset +05:30 is
no whole hour, so the library keeps no location for it; UTC is the nil
location, and +07:00 is a whole hour, whose location the library keeps. -/
def freshTable : List String :=
  ["2019-03-28T11:39:43+05:30"]

/-- Results of `time.ParseDuration` on the duration literals of
`evaluator_test.go`, in nanoseconds, and on a string that is no duration. -/
def durationTable : List (String × Except Error Int) :=
  [("1m30s", .ok 90000000000), ("2m", .ok 120000000000), ("45s", .ok 45000000000),
   ("soon", .error (.library "time: invalid duration \"soon\""))]

/-- A runtime for concrete evaluations.  Parameters are supplied as literals
already, and the two library parsers are given by `timeTable`, `freshTable` and
`durationTable`; a string outside a table is reported as not tabulated.  The
theorems hold for every runtime and do not depend on this one. -/
def tableRuntime : Runtime Literal where
  toLiteral := fun v => .ok v
  timeParse := fun s =>
    match timeTable.lookup s with
    | some result => result
    | none => .error (.library ("time literal not tabulated: " ++ s))
  freshLocation := fun s => freshTable.contains s
  parseDuration := fun s =>
    match durationTable.lookup s with
    | some result => result
    | none => .error (.library ("duration literal not tabulated: " ++ s))

/-- A parameter mapping given by its list of bindings. -/
def paramsOf {V : Type} (bindings : List (String × V)) : Params V :=
  fun name => bindings.lookup name

/-- Whether `name` occurs in a variable reference (`*Ident`) of the tree. -/
def Expr.mentions (name : String) : Expr → Bool
  | .ident val => val == name
  | .parent e => e.mentions name
  | .binary _ lhs rhs => lhs.mentions name || rhs.mentions name
  | _ => false

/-- Whether a reference to the absent parameter `name` is the first node of the
tree to fail, in the order `evaluate` visits the nodes: the reference itself
with `name` absent from the mapping; under a grouping, the same for its child;
under a binary node, the same for the left child, or for the right child once
the left child has reduced without error. -/
def firstFailure {V : Type} (rt : Runtime V) (params : Params V) (name : String) : Expr → Bool
  | .ident val => val == name && (params val).isNone
  | .parent e => firstFailure rt params name e
  | .binary _ lhs rhs =>
    firstFailure rt params name lhs ||
      ((evaluate rt lhs params).toBool && firstFailure rt params name rhs)
  | _ => false

/-- The six equality and ordering operators: EQ, NEQ, LT, LTE, GT, GTE. -/
def Op.isComparison : Op → Bool
  | .EQ | .NEQ | .LT | .LTE | .GT | .GTE => true
  | _ => false

/-- Modelled from the spec: the stringification contract of the literal nodes,
the methods `String()` and `Type()` that the diagnostics of `evaluator.go` call
and that are declared outside it, taken as a parameter. -/
structure Diagnostics where
  render : Literal → String
  typeName : Literal → String

/-- Message of a Go error value, `err.Error()`: the argument of `errors.New`,
the expansion of the format string of `fmt.Errorf`, or the message the library
gave. -/
def Error.message (d : Diagnostics) : Error → String
  | .errorsNew msg => msg
  | .paramNotFound varName => "param " ++ varName ++ " not found"
  | .cannotConvert rhs lhs => "cannot convert \"" ++ d.render rhs ++ "\" to " ++ d.typeName lhs
  | .library msg => msg

/-- The expression `e` inside `n` nested groupings (`*ParentExpr`). -/
def Expr.grouped : Nat → Expr → Expr
  | 0, e => e
  | n + 1, e => .parent (Expr.grouped n e)

/-- The node beneath the groupings (`*ParentExpr`) at the root of a tree. -/
def Expr.ungroup : Expr → Expr
  | .parent e => e.ungroup
  | e => e

/-- A stringification for concrete evaluations, which names the variant of a
literal both as its rendering and as its type name.  The theorems hold for
every stringification and do not depend on this one. -/
def variantDiagnostics : Diagnostics where
  render := fun l => reprStr l.variant
  typeName := fun l => reprStr l.variant

/-! ## Unfolding lemmas -/

theorem evaluate_binary_left_error {V : Type} (rt : Runtime V) (params : Params V) (op : Op)
    (lhs rhs : Expr) (e : Error) (h : evaluate rt lhs params = .error e) :
    evaluate rt (.binary op lhs rhs) params = .error e := by
  simp [evaluate, h]

theorem evaluate_binary_right_error {V : Type} (rt : Runtime V) (params : Params V) (op : Op)
    (lhs rhs : Expr) (l : Literal) (e : Error) (hl : evaluate rt lhs params = .ok l)
    (hr : evaluate rt rhs params = .error e) :
    evaluate rt (.binary op lhs rhs) params = .error e := by
  simp [evaluate, hl, hr]

theorem evaluate_binary_ok {V : Type} (rt : Runtime V) (params : Params V) (op : Op)
    (lhs rhs : Expr) (l r : Literal) (hl : evaluate rt lhs params = .ok l)
    (hr : evaluate rt rhs params = .ok r) :
    evaluate rt (.binary op lhs rhs) params = (compute rt op l r).map Literal.bool := by
  simp only [evaluate, hl, hr]
  cases compute rt op l r <;> rfl

theorem Evaluate_of_error {V : Type} (rt : Runtime V) (params : Params V) (expr : Expr)
    (e : Error) (hne : expr ≠ .nil) (h : evaluate rt expr params = .error e) :
    Evaluate rt expr params = .error e := by
  cases expr <;> simp_all [Evaluate]

theorem Evaluate_of_bool {V : Type} (rt : Runtime V) (params : Params V) (expr : Expr)
    (b : Bool) (h : evaluate rt expr params = .ok (.bool b)) :
    Evaluate rt expr params = .ok b := by
  cases expr <;> simp_all [Evaluate, evaluate]

/-! ## Error propagation -/

/-- C1: a binary node, whatever its operator, fails with exactly the error of
its left child when the left child fails, and with exactly the error of its
right child when the left child reduces and the right child fails; there is no
short-circuit, and `Evaluate` of the node returns the same error. -/
theorem binary_node_propagates_child_error {V : Type} (rt : Runtime V) (params : Params V)
    (op : Op) (lhs rhs : Expr) (e : Error) :
    (evaluate rt lhs params = .error e →
      evaluate rt (.binary op lhs rhs) params = .error e ∧
        Evaluate rt (.binary op lhs rhs) params = .error e) ∧
    (∀ l : Literal, evaluate rt lhs params = .ok l → evaluate rt rhs params = .error e →
      evaluate rt (.binary op lhs rhs) params = .error e ∧
        Evaluate rt (.binary op lhs rhs) params = .error e) := by
  refine ⟨fun h => ?_, fun l hl hr => ?_⟩
  · have h1 := evaluate_binary_left_error rt params op lhs rhs e h
    exact ⟨h1, Evaluate_of_error rt params _ e (by simp) h1⟩
  · have h1 := evaluate_binary_right_error rt params op lhs rhs l e hl hr
    exact ⟨h1, Evaluate_of_error rt params _ e (by simp) h1⟩

/-- C1 at concrete trees: a missing parameter on the left of an AND, and an OR
whose left child is `true` and whose right child is a missing parameter. -/
theorem binary_node_propagates_child_error_witness :
    (evaluate tableRuntime (.ident "a") (paramsOf []) = .error (.paramNotFound "a") ∧
      Evaluate tableRuntime (.binary .AND (.ident "a") (.literal (.bool true))) (paramsOf [])
        = .error (.paramNotFound "a")) ∧
    (evaluate tableRuntime (.literal (.bool true)) (paramsOf []) = .ok (.bool true) ∧
      evaluate tableRuntime (.ident "b") (paramsOf []) = .error (.paramNotFound "b") ∧
      Evaluate tableRuntime (.binary .OR (.literal (.bool true)) (.ident "b")) (paramsOf [])
        = .error (.paramNotFound "b")) :=
  ⟨⟨by decide,
    ((binary_node_propagates_child_error tableRuntime (paramsOf []) .AND (.ident "a")
      (.literal (.bool true)) (.paramNotFound "a")).1 (by decide)).2⟩,
   ⟨by decide, by decide,
    ((binary_node_propagates_child_error tableRuntime (paramsOf []) .OR (.literal (.bool true))
      (.ident "b") (.paramNotFound "b")).2 (.bool true) (by decide) (by decide)).2⟩⟩

theorem evaluate_error_of_mentions_absent {V : Type} (rt : Runtime V) (params : Params V)
    (name : String) (habs : params name = none) (expr : Expr)
    (hm : expr.mentions name = true) : ∃ e, evaluate rt expr params = .error e := by
  induction expr with
  | nil => simp [Expr.mentions] at hm
  | literal l => simp [Expr.mentions] at hm
  | ident val =>
    simp only [Expr.mentions, beq_iff_eq] at hm
    subst hm
    exact ⟨.paramNotFound val, by simp [evaluate, habs]⟩
  | parent e ih =>
    obtain ⟨err, h⟩ := ih (by simpa [Expr.mentions] using hm)
    exact ⟨err, by simpa [evaluate] using h⟩
  | binary op lhs rhs ihl ihr =>
    simp only [Expr.mentions, Bool.or_eq_true] at hm
    cases hl : evaluate rt lhs params with
    | error err => exact ⟨err, evaluate_binary_left_error rt params op lhs rhs err hl⟩
    | ok l =>
      rcases hm with hm | hm
      · obtain ⟨err, h⟩ := ihl hm
        rw [hl] at h
        cases h
      · obtain ⟨err, h⟩ := ihr hm
        exact ⟨err, evaluate_binary_right_error rt params op lhs rhs l err hl h⟩

theorem evaluate_error_of_firstFailure {V : Type} (rt : Runtime V) (params : Params V)
    (name : String) (expr : Expr) (hf : firstFailure rt params name expr = true) :
    evaluate rt expr params = .error (.paramNotFound name) := by
  induction expr with
  | nil => simp [firstFailure] at hf
  | literal l => simp [firstFailure] at hf
  | ident val =>
    simp only [firstFailure, Bool.and_eq_true, beq_iff_eq, Option.isNone_iff_eq_none] at hf
    obtain ⟨h1, h2⟩ := hf
    subst h1
    simp [evaluate, h2]
  | parent e ih =>
    simpa [evaluate] using ih (by simpa [firstFailure] using hf)
  | binary op lhs rhs ihl ihr =>
    simp only [firstFailure, Bool.or_eq_true, Bool.and_eq_true] at hf
    rcases hf with hf | ⟨hok, hf⟩
    · exact evaluate_binary_left_error rt params op lhs rhs _ (ihl hf)
    · cases hl : evaluate rt lhs params with
      | error err => simp [hl, Except.toBool] at hok
      | ok l => exact evaluate_binary_right_error rt params op lhs rhs l _ hl (ihr hf)

theorem ne_nil_of_mentions (name : String) (expr : Expr) (hm : expr.mentions name = true) :
    expr ≠ .nil := by
  intro h
  subst h
  simp [Expr.mentions] at hm

theorem ne_nil_of_firstFailure {V : Type} (rt : Runtime V) (params : Params V) (name : String)
    (expr : Expr) (hf : firstFailure rt params name expr = true) : expr ≠ .nil := by
  intro h
  subst h
  simp [firstFailure] at hf

/-- C2: a tree that contains a reference to a parameter absent from the mapping
makes `Evaluate` return an error, never a verdict; the error is the
parameter-not-found error naming the variable when the tree is the reference
alone, and when the reference is the first node to fail in evaluation order. -/
theorem absent_reference_fails {V : Type} (rt : Runtime V) (params : Params V) (name : String)
    (expr : Expr) (habs : params name = none) :
    (expr.mentions name = true → ∃ e, Evaluate rt expr params = .error e) ∧
    Evaluate rt (.ident name) params = .error (.paramNotFound name) ∧
    (firstFailure rt params name expr = true →
      Evaluate rt expr params = .error (.paramNotFound name)) := by
  refine ⟨fun hm => ?_, ?_, fun hf => ?_⟩
  · obtain ⟨e, h⟩ := evaluate_error_of_mentions_absent rt params name habs expr hm
    exact ⟨e, Evaluate_of_error rt params expr e (ne_nil_of_mentions name expr hm) h⟩
  · simp [Evaluate, evaluate, habs]
  · exact Evaluate_of_error rt params expr _ (ne_nil_of_firstFailure rt params name expr hf)
      (evaluate_error_of_firstFailure rt params name expr hf)

/-- C2 at a concrete rule: `a == 1 && b == 2` with only `a` supplied; the
reference to `b` is the first node to fail. -/
theorem absent_reference_fails_witness :
    paramsOf [("a", Literal.number (Float64.ofBits 0 0))] "b" = none ∧
    (foldComposite .AND (comparison "a" .EQ (.number (Float64.ofBits 0 0)))
      [comparison "b" .EQ (.number (Float64.ofBits 1 0))]).mentions "b" = true ∧
    firstFailure tableRuntime (paramsOf [("a", Literal.number (Float64.ofBits 0 0))]) "b"
      (foldComposite .AND (comparison "a" .EQ (.number (Float64.ofBits 0 0)))
        [comparison "b" .EQ (.number (Float64.ofBits 1 0))]) = true ∧
    Evaluate tableRuntime
      (foldComposite .AND (comparison "a" .EQ (.number (Float64.ofBits 0 0)))
        [comparison "b" .EQ (.number (Float64.ofBits 1 0))])
      (paramsOf [("a", Literal.number (Float64.ofBits 0 0))]) = .error (.paramNotFound "b") :=
  ⟨by decide, by decide, by decide,
    (absent_reference_fails tableRuntime (paramsOf [("a", Literal.number (Float64.ofBits 0 0))])
      "b" _ (by decide)).2.2 (by decide)⟩

/-! ## Composite nodes -/

theorem evaluate_foldComposite_AND {V : Type} (rt : Runtime V) (params : Params V)
    (rest : List Expr) :
    ∀ (first : Expr) (b : Bool), evaluate rt first params = .ok (.bool b) →
      (∀ c ∈ rest, ∃ bc : Bool, evaluate rt c params = .ok (.bool bc)) →
      ∃ v : Bool, evaluate rt (foldComposite .AND first rest) params = .ok (.bool v) ∧
        (v = true ↔ b = true ∧ ∀ c ∈ rest, evaluate rt c params = .ok (.bool true)) := by
  induction rest with
  | nil =>
    intro first b hfirst _
    exact ⟨b, by simpa [foldComposite] using hfirst, by simp⟩
  | cons child rest ih =>
    intro first b hfirst hrest
    obtain ⟨bc, hbc⟩ := hrest child (by simp)
    have hnode : evaluate rt (.binary .AND first child) params = .ok (.bool (b && bc)) := by
      rw [evaluate_binary_ok rt params .AND first child _ _ hfirst hbc]
      rfl
    obtain ⟨v, hv, hiff⟩ := ih (.binary .AND first child) (b && bc) hnode
      (fun c hc => hrest c (List.mem_cons_of_mem _ hc))
    refine ⟨v, by simpa [foldComposite] using hv, ?_⟩
    rw [hiff]
    constructor
    · rintro ⟨hb, hall⟩
      simp only [Bool.and_eq_true] at hb
      refine ⟨hb.1, fun c hc => ?_⟩
      rcases List.mem_cons.mp hc with rfl | hc
      · rw [hbc, hb.2]
      · exact hall c hc
    · rintro ⟨hb, hall⟩
      have hchild := hall child (by simp)
      rw [hbc] at hchild
      simp only [Except.ok.injEq, Literal.bool.injEq] at hchild
      exact ⟨by simp [hb, hchild], fun c hc => hall c (List.mem_cons_of_mem _ hc)⟩

theorem evaluate_foldComposite_OR {V : Type} (rt : Runtime V) (params : Params V)
    (rest : List Expr) :
    ∀ (first : Expr) (b : Bool), evaluate rt first params = .ok (.bool b) →
      (∀ c ∈ rest, ∃ bc : Bool, evaluate rt c params = .ok (.bool bc)) →
      ∃ v : Bool, evaluate rt (foldComposite .OR first rest) params = .ok (.bool v) ∧
        (v = true ↔ b = true ∨ ∃ c ∈ rest, evaluate rt c params = .ok (.bool true)) := by
  induction rest with
  | nil =>
    intro first b hfirst _
    exact ⟨b, by simpa [foldComposite] using hfirst, by simp⟩
  | cons child rest ih =>
    intro first b hfirst hrest
    obtain ⟨bc, hbc⟩ := hrest child (by simp)
    have hnode : evaluate rt (.binary .OR first child) params = .ok (.bool (b || bc)) := by
      rw [evaluate_binary_ok rt params .OR first child _ _ hfirst hbc]
      rfl
    obtain ⟨v, hv, hiff⟩ := ih (.binary .OR first child) (b || bc) hnode
      (fun c hc => hrest c (List.mem_cons_of_mem _ hc))
    refine ⟨v, by simpa [foldComposite] using hv, ?_⟩
    rw [hiff]
    constructor
    · rintro (hb | ⟨c, hc, hct⟩)
      · simp only [Bool.or_eq_true] at hb
        rcases hb with hb | hb
        · exact Or.inl hb
        · exact Or.inr ⟨child, by simp, by rw [hbc, hb]⟩
      · exact Or.inr ⟨c, List.mem_cons_of_mem _ hc, hct⟩
    · rintro (hb | ⟨c, hc, hct⟩)
      · exact Or.inl (by simp [hb])
      · rcases List.mem_cons.mp hc with rfl | hc
        · rw [hbc] at hct
          simp only [Except.ok.injEq, Literal.bool.injEq] at hct
          exact Or.inl (by simp [hct])
        · exact Or.inr ⟨c, hc, hct⟩

/-- C3: for a non-empty list of children that each reduce to a Boolean literal,
`Evaluate` of their left fold into nested AND nodes returns a verdict, which is
true exactly when every child reduces to true and false exactly when some child
reduces to false. -/
theorem and_composite_is_conjunction {V : Type} (rt : Runtime V) (params : Params V)
    (first : Expr) (rest : List Expr)
    (h : ∀ c ∈ first :: rest, ∃ bc : Bool, evaluate rt c params = .ok (.bool bc)) :
    ∃ v : Bool, Evaluate rt (foldComposite .AND first rest) params = .ok v ∧
      (v = true ↔ ∀ c ∈ first :: rest, evaluate rt c params = .ok (.bool true)) ∧
      (v = false ↔ ∃ c ∈ first :: rest, evaluate rt c params = .ok (.bool false)) := by
  obtain ⟨b, hb⟩ := h first (by simp)
  obtain ⟨v, hv, hiff⟩ := evaluate_foldComposite_AND rt params rest first b hb
    (fun c hc => h c (List.mem_cons_of_mem _ hc))
  have htrue : v = true ↔ ∀ c ∈ first :: rest, evaluate rt c params = .ok (.bool true) := by
    rw [hiff]
    constructor
    · rintro ⟨hb1, hall⟩ c hc
      rcases List.mem_cons.mp hc with rfl | hc
      · rw [hb, hb1]
      · exact hall c hc
    · intro hall
      have h1 := hall first (by simp)
      rw [hb] at h1
      simp only [Except.ok.injEq, Literal.bool.injEq] at h1
      exact ⟨h1, fun c hc => hall c (List.mem_cons_of_mem _ hc)⟩
  refine ⟨v, Evaluate_of_bool rt params _ v hv, htrue, ?_⟩
  constructor
  · intro hvf
    by_contra hne
    have hall : ∀ c ∈ first :: rest, evaluate rt c params = .ok (.bool true) := by
      intro c hc
      obtain ⟨bc, hbc⟩ := h c hc
      cases bc with
      | true => exact hbc
      | false => exact absurd ⟨c, hc, hbc⟩ hne
    have := htrue.mpr hall
    simp [hvf] at this
  · rintro ⟨c, hc, hcf⟩
    cases hvt : v with
    | false => rfl
    | true =>
      have := htrue.mp hvt c hc
      rw [hcf] at this
      simp at this

/-- C3 on the rule `a == 1 && b == 2` with `a = 1`, `b = 3`: both children
reduce to Boolean literals and the verdict is false. -/
theorem and_composite_is_conjunction_witness :
    (∀ c ∈ [comparison "a" .EQ (.number (Float64.ofBits 0 0)),
        comparison "b" .EQ (.number (Float64.ofBits 1 0))],
      ∃ bc : Bool, evaluate tableRuntime c
        (paramsOf [("a", .number (Float64.ofBits 0 0)), ("b", .number (Float64.ofBits 1 1))])
        = .ok (.bool bc)) ∧
    Evaluate tableRuntime
      (foldComposite .AND (comparison "a" .EQ (.number (Float64.ofBits 0 0)))
        [comparison "b" .EQ (.number (Float64.ofBits 1 0))])
      (paramsOf [("a", .number (Float64.ofBits 0 0)), ("b", .number (Float64.ofBits 1 1))])
      = .ok false ∧
    ∃ v : Bool, Evaluate tableRuntime
      (foldComposite .AND (comparison "a" .EQ (.number (Float64.ofBits 0 0)))
        [comparison "b" .EQ (.number (Float64.ofBits 1 0))])
      (paramsOf [("a", .number (Float64.ofBits 0 0)), ("b", .number (Float64.ofBits 1 1))])
      = .ok v ∧
      (v = true ↔ ∀ c ∈ [comparison "a" .EQ (.number (Float64.ofBits 0 0)),
          comparison "b" .EQ (.number (Float64.ofBits 1 0))],
        evaluate tableRuntime c
          (paramsOf [("a", .number (Float64.ofBits 0 0)), ("b", .number (Float64.ofBits 1 1))])
          = .ok (.bool true)) ∧
      (v = false ↔ ∃ c ∈ [comparison "a" .EQ (.number (Float64.ofBits 0 0)),
          comparison "b" .EQ (.number (Float64.ofBits 1 0))],
        evaluate tableRuntime c
          (paramsOf [("a", .number (Float64.ofBits 0 0)), ("b", .number (Float64.ofBits 1 1))])
          = .ok (.bool false)) :=
  have hc : ∀ c ∈ [comparison "a" .EQ (.number (Float64.ofBits 0 0)),
        comparison "b" .EQ (.number (Float64.ofBits 1 0))],
      ∃ bc : Bool, evaluate tableRuntime c
        (paramsOf [("a", .number (Float64.ofBits 0 0)), ("b", .number (Float64.ofBits 1 1))])
        = .ok (.bool bc) := by
    intro c hc
    simp only [List.mem_cons, List.mem_singleton, List.not_mem_nil, or_false] at hc
    rcases hc with rfl | rfl
    · exact ⟨true, by decide⟩
    · exact ⟨false, by decide⟩
  ⟨hc, by decide, and_composite_is_conjunction tableRuntime _ _ _ hc⟩

/-- C4: for a non-empty list of children that each reduce to a Boolean literal,
`Evaluate` of their left fold into nested OR nodes returns a verdict, which is
true if and only if at least one child reduces to true. -/
theorem or_composite_is_disjunction {V : Type} (rt : Runtime V) (params : Params V)
    (first : Expr) (rest : List Expr)
    (h : ∀ c ∈ first :: rest, ∃ bc : Bool, evaluate rt c params = .ok (.bool bc)) :
    ∃ v : Bool, Evaluate rt (foldComposite .OR first rest) params = .ok v ∧
      (v = true ↔ ∃ c ∈ first :: rest, evaluate rt c params = .ok (.bool true)) := by
  obtain ⟨b, hb⟩ := h first (by simp)
  obtain ⟨v, hv, hiff⟩ := evaluate_foldComposite_OR rt params rest first b hb
    (fun c hc => h c (List.mem_cons_of_mem _ hc))
  refine ⟨v, Evaluate_of_bool rt params _ v hv, ?_⟩
  rw [hiff]
  constructor
  · rintro (hb1 | ⟨c, hc, hct⟩)
    · exact ⟨first, by simp, by rw [hb, hb1]⟩
    · exact ⟨c, List.mem_cons_of_mem _ hc, hct⟩
  · rintro ⟨c, hc, hct⟩
    rcases List.mem_cons.mp hc with rfl | hc
    · rw [hb] at hct
      simp only [Except.ok.injEq, Literal.bool.injEq] at hct
      exact Or.inl hct
    · exact Or.inr ⟨c, hc, hct⟩

/-- C4 on the rule `a >= 1 || b < 2` with `a = 0`, `b = 1`: both children
reduce to Boolean literals and the verdict is true. -/
theorem or_composite_is_disjunction_witness :
    (∀ c ∈ [comparison "a" .GTE (.number (Float64.ofBits 0 0)),
        comparison "b" .LT (.number (Float64.ofBits 1 0))],
      ∃ bc : Bool, evaluate tableRuntime c
        (paramsOf [("a", .number ⟨false, 0, 0⟩), ("b", .number (Float64.ofBits 0 0))])
        = .ok (.bool bc)) ∧
    Evaluate tableRuntime
      (foldComposite .OR (comparison "a" .GTE (.number (Float64.ofBits 0 0)))
        [comparison "b" .LT (.number (Float64.ofBits 1 0))])
      (paramsOf [("a", .number ⟨false, 0, 0⟩), ("b", .number (Float64.ofBits 0 0))])
      = .ok true ∧
    ∃ v : Bool, Evaluate tableRuntime
      (foldComposite .OR (comparison "a" .GTE (.number (Float64.ofBits 0 0)))
        [comparison "b" .LT (.number (Float64.ofBits 1 0))])
      (paramsOf [("a", .number ⟨false, 0, 0⟩), ("b", .number (Float64.ofBits 0 0))])
      = .ok v ∧
      (v = true ↔ ∃ c ∈ [comparison "a" .GTE (.number (Float64.ofBits 0 0)),
          comparison "b" .LT (.number (Float64.ofBits 1 0))],
        evaluate tableRuntime c
          (paramsOf [("a", .number ⟨false, 0, 0⟩), ("b", .number (Float64.ofBits 0 0))])
          = .ok (.bool true)) :=
  have hc : ∀ c ∈ [comparison "a" .GTE (.number (Float64.ofBits 0 0)),
        comparison "b" .LT (.number (Float64.ofBits 1 0))],
      ∃ bc : Bool, evaluate tableRuntime c
        (paramsOf [("a", .number ⟨false, 0, 0⟩), ("b", .number (Float64.ofBits 0 0))])
        = .ok (.bool bc) := by
    intro c hc
    simp only [List.mem_cons, List.mem_singleton, List.not_mem_nil, or_false] at hc
    rcases hc with rfl | rfl
    · exact ⟨false, by decide⟩
    · exact ⟨true, by decide⟩
  ⟨hc, by decide, or_composite_is_disjunction tableRuntime _ _ _ hc⟩

/-! ## Comparison operators -/

/-- C5: for each of EQ, NEQ, LT, LTE, GT, GTE, two literals of different
variants make the comparison fail (with the cannot-convert error, never a
silent `false`), unless the left one is a timestamp or a duration and the right
one a string. -/
theorem cross_variant_comparison_fails {V : Type} (rt : Runtime V) (op : Op)
    (lhs rhs : Literal) (hop : op.isComparison = true) (hdiff : lhs.variant ≠ rhs.variant)
    (hcoerce : ¬((lhs.variant = .time ∨ lhs.variant = .duration) ∧ rhs.variant = .string)) :
    compute rt op lhs rhs = .error (.cannotConvert rhs lhs) := by
  cases op <;> simp only [Op.isComparison, Bool.false_eq_true] at hop <;>
    cases lhs <;> cases rhs <;>
    simp_all [compute, computeEQ, computeNEQ, computeLT, computeLTE, computeGT, computeGTE,
      cannotConvert, Literal.variant]

/-- C5 at a Boolean left operand against a Number right operand under EQ. -/
theorem cross_variant_comparison_fails_witness :
    Op.EQ.isComparison = true ∧
    (Literal.bool true).variant ≠ (Literal.number (Float64.ofBits 0 0)).variant ∧
    compute tableRuntime .EQ (.bool true) (.number (Float64.ofBits 0 0))
      = .error (.cannotConvert (.number (Float64.ofBits 0 0)) (.bool true)) :=
  ⟨by decide, by decide,
    cross_variant_comparison_fails tableRuntime .EQ (.bool true)
      (.number (Float64.ofBits 0 0)) (by decide) (by decide) (by decide)⟩

theorem computeNEQ_eq_map_not {V : Type} (rt : Runtime V) (lhs rhs : Literal) :
    computeNEQ rt lhs rhs = (computeEQ rt lhs rhs).map (fun b => !b) := by
  cases lhs <;> cases rhs <;>
    simp [computeEQ, computeNEQ, cannotConvert, Except.map, Float64.ne, bne]
  · cases rt.timeParse _ <;> simp
  · cases rt.parseDuration _ <;> simp

/-- C6: on every pair of literals EQ and NEQ fail together (with the same
error), and when they succeed the Boolean of NEQ is the negation of the Boolean
of EQ; on two numbers and on two strings both always succeed. -/
theorem eq_neq_are_complements {V : Type} (rt : Runtime V) (lhs rhs : Literal) :
    (∀ e : Error, compute rt .EQ lhs rhs = .error e ↔ compute rt .NEQ lhs rhs = .error e) ∧
    (∀ a b : Bool, compute rt .EQ lhs rhs = .ok a → compute rt .NEQ lhs rhs = .ok b →
      a = !b) ∧
    (∀ x y : Float64, ∃ a : Bool, compute rt .EQ (.number x) (.number y) = .ok a ∧
      compute rt .NEQ (.number x) (.number y) = .ok (!a)) ∧
    (∀ x y : String, ∃ a : Bool, compute rt .EQ (.string x) (.string y) = .ok a ∧
      compute rt .NEQ (.string x) (.string y) = .ok (!a)) := by
  have key := computeNEQ_eq_map_not rt lhs rhs
  refine ⟨fun e => ?_, fun a b ha hb => ?_, fun x y => ?_, fun x y => ?_⟩
  · simp only [compute]
    rw [key]
    cases computeEQ rt lhs rhs <;> simp [Except.map]
  · simp only [compute] at ha hb
    rw [key, ha] at hb
    simp only [Except.map, Except.ok.injEq] at hb
    simp [← hb]
  · exact ⟨Float64.eq x y, by simp [compute, computeEQ], by
      simp [compute, computeNEQ, Float64.ne]⟩
  · exact ⟨x == y, by simp [compute, computeEQ], by simp [compute, computeNEQ, bne]⟩

/-- C6 on the rule `a != 1` of the tests: with `a = 1` EQ gives true and NEQ
gives false. -/
theorem eq_neq_are_complements_witness :
    compute tableRuntime .EQ (.number (Float64.ofBits 0 0)) (.number (Float64.ofBits 0 0))
      = .ok true ∧
    compute tableRuntime .NEQ (.number (Float64.ofBits 0 0)) (.number (Float64.ofBits 0 0))
      = .ok false ∧ true = !false :=
  ⟨by decide, by decide,
    (eq_neq_are_complements tableRuntime (.number (Float64.ofBits 0 0))
      (.number (Float64.ofBits 0 0))).2.1 true false (by decide) (by decide)⟩

theorem Float64.lt_gt_exclusive (x y : Float64) (h : Float64.lt x y = true) :
    Float64.gt x y = false := by
  simp only [Float64.lt, Float64.gt, Bool.and_eq_true, decide_eq_true_eq] at *
  obtain ⟨⟨hx, hy⟩, hlt⟩ := h
  simp only [hx, hy, Bool.true_and, decide_eq_false_iff_not, not_lt]
  exact le_of_lt hlt

theorem Float64.le_eq_lt_or_eq (x y : Float64) :
    Float64.le x y = (Float64.lt x y || Float64.eq x y) := by
  simp only [Float64.le, Float64.lt, Float64.eq]
  cases x.isNaN <;> cases y.isNaN <;> simp [le_iff_lt_or_eq]

theorem Float64.ge_eq_gt_or_eq (x y : Float64) :
    Float64.ge x y = (Float64.gt x y || Float64.eq x y) := by
  simp only [Float64.ge, Float64.gt, Float64.le, Float64.lt, Float64.eq]
  cases x.isNaN <;> cases y.isNaN <;> simp [le_iff_lt_or_eq, eq_comm]

/-- C7: on two numbers and on two strings the ordering operators always succeed
and agree with each other: LT true forces GT false, LTE is LT or EQ, and GTE is
GT or EQ. -/
theorem ordering_operators_consistent {V : Type} (rt : Runtime V) :
    (∀ a b : Float64, ∃ lt gt eq lte gte : Bool,
      compute rt .LT (.number a) (.number b) = .ok lt ∧
      compute rt .GT (.number a) (.number b) = .ok gt ∧
      compute rt .EQ (.number a) (.number b) = .ok eq ∧
      compute rt .LTE (.number a) (.number b) = .ok lte ∧
      compute rt .GTE (.number a) (.number b) = .ok gte ∧
      (lt = true → gt = false) ∧ lte = (lt || eq) ∧ gte = (gt || eq)) ∧
    (∀ a b : String, ∃ lt gt eq lte gte : Bool,
      compute rt .LT (.string a) (.string b) = .ok lt ∧
      compute rt .GT (.string a) (.string b) = .ok gt ∧
      compute rt .EQ (.string a) (.string b) = .ok eq ∧
      compute rt .LTE (.string a) (.string b) = .ok lte ∧
      compute rt .GTE (.string a) (.string b) = .ok gte ∧
      (lt = true → gt = false) ∧ lte = (lt || eq) ∧ gte = (gt || eq)) := by
  constructor
  · intro a b
    exact ⟨Float64.lt a b, Float64.gt a b, Float64.eq a b, Float64.le a b, Float64.ge a b,
      rfl, rfl, rfl, rfl, rfl, Float64.lt_gt_exclusive a b, Float64.le_eq_lt_or_eq a b,
      Float64.ge_eq_gt_or_eq a b⟩
  · intro a b
    refine ⟨decide (a < b), decide (a > b), a == b, decide (a ≤ b), decide (a ≥ b),
      rfl, rfl, rfl, rfl, rfl, ?_, ?_, ?_⟩
    · intro h
      simp only [decide_eq_true_eq] at h
      simp only [gt_iff_lt, decide_eq_false_iff_not, not_lt]
      exact le_of_lt h
    · rw [Bool.eq_iff_iff]
      simp [le_iff_lt_or_eq]
    · rw [Bool.eq_iff_iff]
      simp only [Bool.or_eq_true, decide_eq_true_eq, beq_iff_eq, ge_iff_le, gt_iff_lt,
        le_iff_lt_or_eq]
      exact or_congr Iff.rfl eq_comm

/-- C7 at the numbers 1 and 2 and at the strings "1" and "2". -/
theorem ordering_operators_consistent_witness :
    (∃ lt gt eq lte gte : Bool,
      compute tableRuntime .LT (.number (Float64.ofBits 0 0)) (.number (Float64.ofBits 1 0))
        = .ok lt ∧
      compute tableRuntime .GT (.number (Float64.ofBits 0 0)) (.number (Float64.ofBits 1 0))
        = .ok gt ∧
      compute tableRuntime .EQ (.number (Float64.ofBits 0 0)) (.number (Float64.ofBits 1 0))
        = .ok eq ∧
      compute tableRuntime .LTE (.number (Float64.ofBits 0 0)) (.number (Float64.ofBits 1 0))
        = .ok lte ∧
      compute tableRuntime .GTE (.number (Float64.ofBits 0 0)) (.number (Float64.ofBits 1 0))
        = .ok gte ∧
      (lt = true → gt = false) ∧ lte = (lt || eq) ∧ gte = (gt || eq)) ∧
    compute tableRuntime .LT (.number (Float64.ofBits 0 0)) (.number (Float64.ofBits 1 0))
      = .ok true ∧
    compute tableRuntime .LTE (.string "2") (.string "2") = .ok true ∧
    compute tableRuntime .GT (.string "1") (.string "2") = .ok false :=
  ⟨(ordering_operators_consistent tableRuntime).1 (Float64.ofBits 0 0) (Float64.ofBits 1 0),
    by decide, by simp [compute, computeLTE], by
      simp only [compute, computeGT, gt_iff_lt, Except.ok.injEq, decide_eq_false_iff_not,
        not_lt, String.le_iff_toList_le]
      decide⟩

theorem rangeNumber_iff (x : Float64) (xs : List Float64) :
    rangeNumber x xs = true ↔ ∃ v ∈ xs, Float64.eq x v = true := by
  induction xs with
  | nil => simp [rangeNumber]
  | cons v rest ih =>
    simp only [rangeNumber, List.mem_cons, exists_eq_or_imp]
    cases hv : Float64.eq x v <;> simp [ih]

theorem rangeString_iff (x : String) (xs : List String) :
    rangeString x xs = true ↔ x ∈ xs := by
  induction xs with
  | nil => simp [rangeString]
  | cons v rest ih =>
    simp only [rangeString, List.mem_cons]
    by_cases hv : x = v <;> simp [hv, ih]

/-- C8: IN of a number against a number list succeeds and is true exactly when
some element equals the number (Go `==`), IN of a string against a string list
succeeds and is true exactly when the string is an element, both are false on
the empty list, and every other pair of operand variants fails with the
cannot-convert error. -/
theorem in_is_membership {V : Type} (rt : Runtime V) (lhs rhs : Literal) :
    (∀ (x : Float64) (xs : List Float64), ∃ b : Bool,
      compute rt .IN (.number x) (.numberSlice xs) = .ok b ∧
        (b = true ↔ ∃ v ∈ xs, Float64.eq x v = true)) ∧
    (∀ (x : String) (xs : List String), ∃ b : Bool,
      compute rt .IN (.string x) (.stringSlice xs) = .ok b ∧ (b = true ↔ x ∈ xs)) ∧
    (∀ x : Float64, compute rt .IN (.number x) (.numberSlice []) = .ok false) ∧
    (∀ x : String, compute rt .IN (.string x) (.stringSlice []) = .ok false) ∧
    (¬(lhs.variant = .number ∧ rhs.variant = .numberSlice) →
      ¬(lhs.variant = .string ∧ rhs.variant = .stringSlice) →
      compute rt .IN lhs rhs = .error (.cannotConvert rhs lhs)) := by
  refine ⟨fun x xs => ⟨rangeNumber x xs, rfl, rangeNumber_iff x xs⟩,
    fun x xs => ⟨rangeString x xs, rfl, rangeString_iff x xs⟩, fun _ => rfl, fun _ => rfl, ?_⟩
  intro h1 h2
  cases lhs <;> cases rhs <;> simp_all [compute, computeIN, cannotConvert, Literal.variant]

/-- C8 on the rule `a in [1, 2, 3]` of the tests with `a = 1`, and at a string
against a number list. -/
theorem in_is_membership_witness :
    compute tableRuntime .IN (.number (Float64.ofBits 0 0))
      (.numberSlice [Float64.ofBits 0 0, Float64.ofBits 1 0, Float64.ofBits 1 1]) = .ok true ∧
    ¬((Literal.string "1").variant = .number ∧
      (Literal.numberSlice [Float64.ofBits 0 0]).variant = .numberSlice) ∧
    ¬((Literal.string "1").variant = .string ∧
      (Literal.numberSlice [Float64.ofBits 0 0]).variant = .stringSlice) ∧
    compute tableRuntime .IN (.string "1") (.numberSlice [Float64.ofBits 0 0])
      = .error (.cannotConvert (.numberSlice [Float64.ofBits 0 0]) (.string "1")) :=
  ⟨by decide, by decide, by decide,
    (in_is_membership tableRuntime (.string "1") (.numberSlice [Float64.ofBits 0 0])).2.2.2.2
      (by decide) (by decide)⟩

theorem timestamp_string_ordering_as_parsed {V : Type} (rt : Runtime V) (op : Op) (t : Time)
    (s : String) (hop : op = .LT ∨ op = .LTE ∨ op = .GT ∨ op = .GTE) :
    (∀ u : Time, rt.timeParse s = .ok u →
      compute rt op (.time t) (.string s) = compute rt op (.time t) (.time u)) ∧
    (∀ e : Error, rt.timeParse s = .error e →
      compute rt op (.time t) (.string s) = .error e) := by
  constructor
  · intro u hu
    rcases hop with rfl | rfl | rfl | rfl <;>
      simp [compute, computeLT, computeLTE, computeGT, computeGTE, hu]
  · intro e he
    rcases hop with rfl | rfl | rfl | rfl <;>
      simp [compute, computeLT, computeLTE, computeGT, computeGTE, he]

theorem timestamp_string_equality_as_parsed {V : Type} (rt : Runtime V) (t : Time)
    (s : String) :
    (∀ u : Time, rt.timeParse s = .ok u →
      compute rt .EQ (.time t) (.string s) = .ok (!rt.freshLocation s && t == u) ∧
      compute rt .NEQ (.time t) (.string s) = .ok (!(!rt.freshLocation s && t == u)) ∧
      compute rt .EQ (.time t) (.time u) = .ok (t == u) ∧
      compute rt .NEQ (.time t) (.time u) = .ok (t != u)) ∧
    (∀ e : Error, rt.timeParse s = .error e →
      compute rt .EQ (.time t) (.string s) = .error e ∧
      compute rt .NEQ (.time t) (.string s) = .error e) := by
  constructor
  · intro u hu
    simp [compute, computeEQ, computeNEQ, hu, Time.eqParsed]
  · intro e he
    simp [compute, computeEQ, computeNEQ, he]

/-- C9: the timestamp `h` that `time.Parse` returns for
"2019-03-28T11:39:43+05:30", a string for which every call allocates a new
location, against that same string and against the timestamp `h` itself: EQ
returns false against the string and true against the timestamp, NEQ returns
true against the string and false against the timestamp, while LT and GT return
the same Boolean against both. -/
theorem timestamp_eq_against_own_literal :
    tableRuntime.timeParse "2019-03-28T11:39:43+05:30" = .ok ⟨1553753383, 0, none, 530⟩ ∧
    tableRuntime.freshLocation "2019-03-28T11:39:43+05:30" = true ∧
    compute tableRuntime .EQ (.time ⟨1553753383, 0, none, 530⟩)
      (.string "2019-03-28T11:39:43+05:30") = .ok false ∧
    compute tableRuntime .EQ (.time ⟨1553753383, 0, none, 530⟩)
      (.time ⟨1553753383, 0, none, 530⟩) = .ok true ∧
    compute tableRuntime .NEQ (.time ⟨1553753383, 0, none, 530⟩)
      (.string "2019-03-28T11:39:43+05:30") = .ok true ∧
    compute tableRuntime .NEQ (.time ⟨1553753383, 0, none, 530⟩)
      (.time ⟨1553753383, 0, none, 530⟩) = .ok false ∧
    compute tableRuntime .LT (.time ⟨1553753383, 0, none, 530⟩)
      (.string "2019-03-28T11:39:43+05:30") = .ok false ∧
    compute tableRuntime .LT (.time ⟨1553753383, 0, none, 530⟩)
      (.time ⟨1553753383, 0, none, 530⟩) = .ok false ∧
    compute tableRuntime .GT (.time ⟨1553753383, 0, none, 530⟩)
      (.string "2019-03-28T11:39:43+05:30") = .ok false ∧
    compute tableRuntime .GT (.time ⟨1553753383, 0, none, 530⟩)
      (.time ⟨1553753383, 0, none, 530⟩) = .ok false ∧
    Evaluate tableRuntime (comparison "a" .EQ (.string "2019-03-28T11:39:43+05:30"))
      (paramsOf [("a", .time ⟨1553753383, 0, none, 530⟩)]) = .ok false := by
  decide

/-- C10: the timestamp of the tests (11:39:43 at +07:00) against the same
instant written in UTC, as a string and as a timestamp: EQ returns false and
NEQ returns true although the instants are equal, and neither LT nor GT holds. -/
theorem timestamp_eq_compares_locations :
    tableRuntime.timeParse "2019-03-28T11:39:43+07:00" = .ok ⟨1553747983, 0, none, 7⟩ ∧
    tableRuntime.timeParse "2019-03-28T04:39:43Z" = .ok ⟨1553747983, 0, none, 0⟩ ∧
    compute tableRuntime .EQ (.time ⟨1553747983, 0, none, 7⟩) (.string "2019-03-28T04:39:43Z")
      = .ok false ∧
    compute tableRuntime .NEQ (.time ⟨1553747983, 0, none, 7⟩) (.string "2019-03-28T04:39:43Z")
      = .ok true ∧
    compute tableRuntime .EQ (.time ⟨1553747983, 0, none, 7⟩) (.time ⟨1553747983, 0, none, 0⟩)
      = .ok false ∧
    compute tableRuntime .LT (.time ⟨1553747983, 0, none, 7⟩) (.time ⟨1553747983, 0, none, 0⟩)
      = .ok false ∧
    compute tableRuntime .GT (.time ⟨1553747983, 0, none, 7⟩) (.time ⟨1553747983, 0, none, 0⟩)
      = .ok false ∧
    Evaluate tableRuntime (comparison "a" .EQ (.string "2019-03-28T04:39:43Z"))
      (paramsOf [("a", .time ⟨1553747983, 0, none, 7⟩)]) = .ok false := by
  decide

/-! ## Durations, timestamps and the logical operators -/

/-- C11: a duration `d` against a string that parses as the duration `v` gives,
under EQ, NEQ, LT, LTE, GT, GTE, the Booleans `d = v`, `d ≠ v`, `d < v`,
`d ≤ v`, `d > v`, `d ≥ v` on the signed integer values; against a string that
does not parse, each of the six operators returns the error of the parser. -/
theorem duration_string_as_parsed {V : Type} (rt : Runtime V) (d : Int) (s : String) :
    (∀ v : Int, rt.parseDuration s = .ok v →
      compute rt .EQ (.duration d) (.string s) = .ok (decide (d = v)) ∧
      compute rt .NEQ (.duration d) (.string s) = .ok (decide (d ≠ v)) ∧
      compute rt .LT (.duration d) (.string s) = .ok (decide (d < v)) ∧
      compute rt .LTE (.duration d) (.string s) = .ok (decide (d ≤ v)) ∧
      compute rt .GT (.duration d) (.string s) = .ok (decide (d > v)) ∧
      compute rt .GTE (.duration d) (.string s) = .ok (decide (d ≥ v))) ∧
    (∀ e : Error, rt.parseDuration s = .error e →
      ∀ op : Op, op.isComparison = true →
        compute rt op (.duration d) (.string s) = .error e) := by
  constructor
  · intro v hv
    simp [compute, computeEQ, computeNEQ, computeLT, computeLTE, computeGT, computeGTE, hv]
  · intro e he op hop
    cases op <;> simp only [Op.isComparison, Bool.false_eq_true] at hop <;>
      simp [compute, computeEQ, computeNEQ, computeLT, computeLTE, computeGT, computeGTE, he]

/-- C11 on the rule `a <= "1m30s"` of the tests with `a` = 1m30s, and on a
string that is no duration. -/
theorem duration_string_as_parsed_witness :
    tableRuntime.parseDuration "1m30s" = .ok 90000000000 ∧
    compute tableRuntime .LTE (.duration 90000000000) (.string "1m30s") = .ok true ∧
    compute tableRuntime .GTE (.duration 90000000000) (.string "1m30s") = .ok true ∧
    compute tableRuntime .LT (.duration 90000000000) (.string "1m30s") = .ok false ∧
    (compute tableRuntime .LTE (.duration 90000000000) (.string "1m30s")
      = .ok (decide ((90000000000 : Int) ≤ 90000000000))) ∧
    (∃ e : Error, tableRuntime.parseDuration "soon" = .error e ∧
      Op.GTE.isComparison = true ∧
      compute tableRuntime .GTE (.duration 90000000000) (.string "soon") = .error e) :=
  ⟨by decide, by decide, by decide, by decide,
    ((duration_string_as_parsed tableRuntime 90000000000 "1m30s").1 90000000000
      (by decide)).2.2.2.1,
    ⟨_, rfl, by decide,
      (duration_string_as_parsed tableRuntime 90000000000 "soon").2 _ rfl .GTE (by decide)⟩⟩

theorem Time.not_Before_of_Equal (t u : Time) (h : t.Equal u = true) :
    t.Before u = false := by
  unfold Time.Equal at h
  unfold Time.Before
  cases ht : t.mono <;> cases hu : u.mono <;> simp_all

theorem Time.not_After_of_Equal (t u : Time) (h : t.Equal u = true) :
    t.After u = false := by
  unfold Time.Equal at h
  unfold Time.After
  cases ht : t.mono <;> cases hu : u.mono <;> simp_all

/-- C12: with a timestamp on the left, LTE returns exactly what LT returns and
GTE exactly what GT returns, on every right operand (same Boolean or same
error); against an equal instant, given as a timestamp or as a string that
parses to one, LTE and GTE are both false. -/
theorem timestamp_lte_gte_are_strict {V : Type} (rt : Runtime V) (t : Time) (rhs : Literal) :
    compute rt .LTE (.time t) rhs = compute rt .LT (.time t) rhs ∧
    compute rt .GTE (.time t) rhs = compute rt .GT (.time t) rhs ∧
    (∀ u : Time, t.Equal u = true →
      compute rt .LTE (.time t) (.time u) = .ok false ∧
      compute rt .GTE (.time t) (.time u) = .ok false) ∧
    (∀ (s : String) (u : Time), rt.timeParse s = .ok u → t.Equal u = true →
      compute rt .LTE (.time t) (.string s) = .ok false ∧
      compute rt .GTE (.time t) (.string s) = .ok false) := by
  refine ⟨?_, ?_, fun u hu => ?_, fun s u hs hu => ?_⟩
  · cases rhs <;> simp [compute, computeLTE, computeLT]
  · cases rhs <;> simp [compute, computeGTE, computeGT]
  · simp [compute, computeLTE, computeGTE, Time.not_Before_of_Equal t u hu,
      Time.not_After_of_Equal t u hu]
  · simp [compute, computeLTE, computeGTE, hs, Time.not_Before_of_Equal t u hu,
      Time.not_After_of_Equal t u hu]

/-- C12 on the timestamp of the tests against itself and against its own
RFC-3339 literal: LTE and GTE are false. -/
theorem timestamp_lte_gte_are_strict_witness :
    Time.Equal ⟨1553747983, 0, none, 7⟩ ⟨1553747983, 0, none, 7⟩ = true ∧
    tableRuntime.timeParse "2019-03-28T11:39:43+07:00" = .ok ⟨1553747983, 0, none, 7⟩ ∧
    (compute tableRuntime .LTE (.time ⟨1553747983, 0, none, 7⟩)
        (.time ⟨1553747983, 0, none, 7⟩) = .ok false ∧
      compute tableRuntime .GTE (.time ⟨1553747983, 0, none, 7⟩)
        (.time ⟨1553747983, 0, none, 7⟩) = .ok false) ∧
    (compute tableRuntime .LTE (.time ⟨1553747983, 0, none, 7⟩)
        (.string "2019-03-28T11:39:43+07:00") = .ok false ∧
      compute tableRuntime .GTE (.time ⟨1553747983, 0, none, 7⟩)
        (.string "2019-03-28T11:39:43+07:00") = .ok false) :=
  ⟨by decide, by decide,
    (timestamp_lte_gte_are_strict tableRuntime ⟨1553747983, 0, none, 7⟩
      (.time ⟨1553747983, 0, none, 7⟩)).2.2.1 ⟨1553747983, 0, none, 7⟩ (by decide),
    (timestamp_lte_gte_are_strict tableRuntime ⟨1553747983, 0, none, 7⟩
      (.time ⟨1553747983, 0, none, 7⟩)).2.2.2 "2019-03-28T11:39:43+07:00"
      ⟨1553747983, 0, none, 7⟩ (by decide) (by decide)⟩

/-- C13: AND and OR applied to two literals never fail; on two Booleans the
result is their logical AND / OR, and when at least one operand is not a
Boolean the result is true for both operators. -/
theorem and_or_never_fail {V : Type} (rt : Runtime V) (lhs rhs : Literal) :
    (∃ b : Bool, compute rt .AND lhs rhs = .ok b) ∧
    (∃ b : Bool, compute rt .OR lhs rhs = .ok b) ∧
    (∀ l r : Bool, compute rt .AND (.bool l) (.bool r) = .ok (l && r) ∧
      compute rt .OR (.bool l) (.bool r) = .ok (l || r)) ∧
    (lhs.variant ≠ .bool ∨ rhs.variant ≠ .bool →
      compute rt .AND lhs rhs = .ok true ∧ compute rt .OR lhs rhs = .ok true) := by
  refine ⟨?_, ?_, fun l r => ⟨rfl, rfl⟩, ?_⟩
  · cases lhs <;> cases rhs <;> simp [compute, computeAND]
  · cases lhs <;> cases rhs <;> simp [compute, computeOR]
  · intro h
    cases lhs <;> cases rhs <;> simp_all [compute, computeAND, computeOR, Literal.variant]

/-- C13 at a Boolean `false` against a number: AND and OR both give true. -/
theorem and_or_never_fail_witness :
    ((Literal.bool false).variant ≠ .bool ∨
      (Literal.number (Float64.ofBits 0 0)).variant ≠ .bool) ∧
    compute tableRuntime .AND (.bool false) (.number (Float64.ofBits 0 0)) = .ok true ∧
    compute tableRuntime .OR (.bool false) (.number (Float64.ofBits 0 0)) = .ok true :=
  ⟨by decide,
    (and_or_never_fail tableRuntime (.bool false) (.number (Float64.ofBits 0 0))).2.2.2
      (by decide)⟩

/-! ## Diagnostics and the entry point -/

/-- C14 as stated fails: EQ of a timestamp against the string "yesterday" fails
with the error of `time.Parse`, whose message is not of the form
`cannot convert "<rendered rhs>" to <type name of lhs>` whatever the rendering
of literals is. -/
theorem parse_failure_keeps_library_message :
    compute tableRuntime .EQ (.time ⟨1553747983, 0, none, 7⟩) (.string "yesterday")
      = .error (.library
          "parsing time \"yesterday\" as \"2006-01-02T15:04:05Z07:00\": cannot parse \"yesterday\" as \"2006\"") ∧
    ¬ ∃ (d : Diagnostics) (e : Error),
        compute tableRuntime .EQ (.time ⟨1553747983, 0, none, 7⟩) (.string "yesterday")
          = .error e ∧
        e.message d = "cannot convert \"" ++ d.render (.string "yesterday") ++ "\" to "
          ++ d.typeName (.time ⟨1553747983, 0, none, 7⟩) := by
  have hrun : compute tableRuntime .EQ (.time ⟨1553747983, 0, none, 7⟩) (.string "yesterday")
      = .error (.library
          "parsing time \"yesterday\" as \"2006-01-02T15:04:05Z07:00\": cannot parse \"yesterday\" as \"2006\"") := by
    decide
  refine ⟨hrun, ?_⟩
  rintro ⟨d, e, he, hmsg⟩
  rw [hrun] at he
  simp only [Except.error.injEq] at he
  subst he
  have hhead := congrArg (fun m => m.data.head?) hmsg
  simp [Error.message, String.data_append] at hhead

/-- C14, amended: for each of EQ, NEQ, LT, LTE, GT, GTE and IN on two literals,
a timestamp against a string (under the first six) fails exactly when the
string does not parse, with exactly the error of `time.Parse`; a duration
against a string fails exactly when the string does not parse, with exactly the
error of `time.ParseDuration`; and every other failure is the cannot-convert
error, with message `cannot convert "<rendered rhs>" to <type name of lhs>`. -/
theorem comparison_failure_error {V : Type} (rt : Runtime V) (d : Diagnostics) (op : Op)
    (lhs rhs : Literal) (hop : op.isComparison = true ∨ op = .IN) :
    (∀ (t : Time) (s : String) (e : Error),
      op.isComparison = true → lhs = .time t → rhs = .string s →
      (compute rt op lhs rhs = .error e ↔ rt.timeParse s = .error e)) ∧
    (∀ (v : Int) (s : String) (e : Error),
      op.isComparison = true → lhs = .duration v → rhs = .string s →
      (compute rt op lhs rhs = .error e ↔ rt.parseDuration s = .error e)) ∧
    (∀ e : Error, compute rt op lhs rhs = .error e →
      ¬(op.isComparison = true ∧ (lhs.variant = .time ∨ lhs.variant = .duration) ∧
        rhs.variant = .string) →
      e = .cannotConvert rhs lhs ∧
        e.message d = "cannot convert \"" ++ d.render rhs ++ "\" to " ++ d.typeName lhs) := by
  have hcc : ∀ e0 : Error, e0 = .cannotConvert rhs lhs →
      e0 = .cannotConvert rhs lhs ∧
        e0.message d = "cannot convert \"" ++ d.render rhs ++ "\" to " ++ d.typeName lhs := by
    intro e0 h0
    subst h0
    exact ⟨rfl, rfl⟩
  refine ⟨?_, ?_, ?_⟩
  · intro t s e hcmp hl hr
    subst hl hr
    cases op <;> simp only [Op.isComparison, Bool.false_eq_true] at hcmp <;>
      simp only [compute, computeEQ, computeNEQ, computeLT, computeLTE, computeGT,
        computeGTE] <;>
      cases rt.timeParse s <;> simp
  · intro v s e hcmp hl hr
    subst hl hr
    cases op <;> simp only [Op.isComparison, Bool.false_eq_true] at hcmp <;>
      simp only [compute, computeEQ, computeNEQ, computeLT, computeLTE, computeGT,
        computeGTE] <;>
      cases rt.parseDuration s <;> simp
  · intro e hfail hnot
    rcases hop with hop | hop
    · cases op <;> simp only [Op.isComparison, Bool.false_eq_true] at hop <;>
        cases lhs <;> cases rhs <;>
        simp only [compute, computeEQ, computeNEQ, computeLT, computeLTE, computeGT,
          computeGTE, cannotConvert, Except.error.injEq, reduceCtorEq] at hfail <;>
        first
          | exact hcc e hfail.symm
          | exact absurd ⟨rfl, by simp [Literal.variant], rfl⟩ hnot
    · subst hop
      cases lhs <;> cases rhs <;>
        simp only [compute, computeIN, cannotConvert, Except.error.injEq, reduceCtorEq]
          at hfail <;>
        exact hcc e hfail.symm

/-- C14, amended, at the three kinds of failure: a Boolean against a number
under EQ (cannot-convert error and its message), a timestamp against the string
"yesterday" under LT (error of `time.Parse`), and a duration against the string
"soon" under GTE (error of `time.ParseDuration`). -/
theorem comparison_failure_error_witness :
    (compute tableRuntime .EQ (.bool true) (.number (Float64.ofBits 1 1))
        = .error (.cannotConvert (.number (Float64.ofBits 1 1)) (.bool true)) ∧
      (Error.cannotConvert (.number (Float64.ofBits 1 1)) (.bool true)
          = .cannotConvert (.number (Float64.ofBits 1 1)) (.bool true) ∧
        (Error.cannotConvert (.number (Float64.ofBits 1 1)) (.bool true)).message
            variantDiagnostics
          = "cannot convert \"" ++ variantDiagnostics.render (.number (Float64.ofBits 1 1))
            ++ "\" to " ++ variantDiagnostics.typeName (.bool true))) ∧
    (tableRuntime.timeParse "yesterday" = .error (.library
        "parsing time \"yesterday\" as \"2006-01-02T15:04:05Z07:00\": cannot parse \"yesterday\" as \"2006\"") ∧
      compute tableRuntime .LT (.time ⟨1553747983, 0, none, 7⟩) (.string "yesterday")
        = .error (.library
        "parsing time \"yesterday\" as \"2006-01-02T15:04:05Z07:00\": cannot parse \"yesterday\" as \"2006\"")) ∧
    (tableRuntime.parseDuration "soon" = .error (.library "time: invalid duration \"soon\"") ∧
      compute tableRuntime .GTE (.duration 90000000000) (.string "soon")
        = .error (.library "time: invalid duration \"soon\"")) :=
  ⟨⟨by decide,
      (comparison_failure_error tableRuntime variantDiagnostics .EQ (.bool true)
        (.number (Float64.ofBits 1 1)) (Or.inl (by decide))).2.2
        (.cannotConvert (.number (Float64.ofBits 1 1)) (.bool true)) (by decide) (by decide)⟩,
    ⟨by decide,
      ((comparison_failure_error tableRuntime variantDiagnostics .LT
        (.time ⟨1553747983, 0, none, 7⟩) (.string "yesterday") (Or.inl (by decide))).1
        ⟨1553747983, 0, none, 7⟩ "yesterday" _ (by decide) rfl rfl).mpr (by decide)⟩,
    ⟨by decide,
      ((comparison_failure_error tableRuntime variantDiagnostics .GTE
        (.duration 90000000000) (.string "soon") (Or.inl (by decide))).2.1
        90000000000 "soon" _ (by decide) rfl rfl).mpr (by decide)⟩⟩

/-- C15: on the nil tree `Evaluate` fails with the error
"invalid input expression", whatever the mapping and the runtime are. -/
theorem nil_tree_is_invalid_input {V : Type} (rt : Runtime V) (params : Params V) :
    Evaluate rt .nil params = .error (.errorsNew "invalid input expression") ∧
    ∀ d : Diagnostics,
      (Error.errorsNew "invalid input expression").message d = "invalid input expression" :=
  ⟨rfl, fun _ => rfl⟩

/-- C16: on a non-nil tree, `Evaluate` returns `b` when the reduction gives the
Boolean literal `b`, fails with "invalid result expression" when the reduction
gives a literal of any other variant, and fails with exactly `e` when the
reduction fails with `e`. -/
theorem Evaluate_follows_reduction {V : Type} (rt : Runtime V) (params : Params V)
    (expr : Expr) (hne : expr ≠ .nil) :
    (∀ b : Bool, evaluate rt expr params = .ok (.bool b) → Evaluate rt expr params = .ok b) ∧
    (∀ v : Literal, evaluate rt expr params = .ok v → v.variant ≠ .bool →
      Evaluate rt expr params = .error (.errorsNew "invalid result expression")) ∧
    (∀ e : Error, evaluate rt expr params = .error e → Evaluate rt expr params = .error e) := by
  refine ⟨fun b hb => Evaluate_of_bool rt params expr b hb, fun v hv hvar => ?_,
    fun e he => Evaluate_of_error rt params expr e hne he⟩
  cases expr <;> first
    | exact absurd rfl hne
    | (simp only [Evaluate, hv]
       cases v <;> simp_all [Literal.variant])

/-- C16 at three trees: a comparison that reduces to `true`, a bare number
literal, and a reference to a missing parameter. -/
theorem Evaluate_follows_reduction_witness :
    (comparison "a" .EQ (.number (Float64.ofBits 0 0)) ≠ .nil ∧
      evaluate tableRuntime (comparison "a" .EQ (.number (Float64.ofBits 0 0)))
        (paramsOf [("a", .number (Float64.ofBits 0 0))]) = .ok (.bool true) ∧
      Evaluate tableRuntime (comparison "a" .EQ (.number (Float64.ofBits 0 0)))
        (paramsOf [("a", .number (Float64.ofBits 0 0))]) = .ok true) ∧
    (evaluate tableRuntime (.literal (.number (Float64.ofBits 0 0))) (paramsOf [])
        = .ok (.number (Float64.ofBits 0 0)) ∧
      Evaluate tableRuntime (.literal (.number (Float64.ofBits 0 0))) (paramsOf [])
        = .error (.errorsNew "invalid result expression")) ∧
    (evaluate tableRuntime (.ident "a") (paramsOf []) = .error (.paramNotFound "a") ∧
      Evaluate tableRuntime (.ident "a") (paramsOf []) = .error (.paramNotFound "a")) :=
  ⟨⟨by decide, by decide,
      (Evaluate_follows_reduction tableRuntime (paramsOf [("a", .number (Float64.ofBits 0 0))])
        (comparison "a" .EQ (.number (Float64.ofBits 0 0))) (by decide)).1 true (by decide)⟩,
    ⟨by decide,
      (Evaluate_follows_reduction tableRuntime (paramsOf [])
        (.literal (.number (Float64.ofBits 0 0))) (by decide)).2.1
        (.number (Float64.ofBits 0 0)) (by decide) (by decide)⟩,
    ⟨by decide,
      (Evaluate_follows_reduction tableRuntime (paramsOf []) (.ident "a") (by decide)).2.2 _
        (by decide)⟩⟩

/-! ## Groupings, the root check and parameter dependence -/

theorem Evaluate_of_ne_nil {V : Type} (rt : Runtime V) (params : Params V) (expr : Expr)
    (hne : expr ≠ .nil) :
    Evaluate rt expr params =
      match evaluate rt expr params with
      | .error err => .error err
      | .ok (.bool val) => .ok val
      | .ok _ => .error (.errorsNew "invalid result expression") := by
  cases expr <;> first
    | exact absurd rfl hne
    | rfl

theorem evaluate_grouped {V : Type} (rt : Runtime V) (params : Params V) (e : Expr) (n : Nat) :
    evaluate rt (Expr.grouped n e) params = evaluate rt e params := by
  induction n with
  | zero => rfl
  | succ n ih => simpa [Expr.grouped, evaluate] using ih

theorem grouped_ne_nil (e : Expr) (hne : e ≠ .nil) (n : Nat) : Expr.grouped n e ≠ .nil := by
  cases n with
  | zero => simpa [Expr.grouped] using hne
  | succ n => simp [Expr.grouped]

/-- C17: a grouping is transparent: reducing `Grouping(e)` gives what reducing
`e` gives, literal or error, and for a non-nil `e` so does `Evaluate`, under any
number of nested groupings. -/
theorem grouping_is_transparent {V : Type} (rt : Runtime V) (params : Params V) (e : Expr)
    (n : Nat) (hne : e ≠ .nil) :
    evaluate rt (.parent e) params = evaluate rt e params ∧
    Evaluate rt (.parent e) params = Evaluate rt e params ∧
    evaluate rt (Expr.grouped n e) params = evaluate rt e params ∧
    Evaluate rt (Expr.grouped n e) params = Evaluate rt e params := by
  have h1 : evaluate rt (.parent e) params = evaluate rt e params := by simp [evaluate]
  have hn := evaluate_grouped rt params e n
  refine ⟨h1, ?_, hn, ?_⟩
  · rw [Evaluate_of_ne_nil rt params (.parent e) (by simp), Evaluate_of_ne_nil rt params e hne,
      h1]
  · rw [Evaluate_of_ne_nil rt params _ (grouped_ne_nil e hne n),
      Evaluate_of_ne_nil rt params e hne, hn]

/-- C17 on the comparison `a == 1` inside three groupings, with `a = 1`. -/
theorem grouping_is_transparent_witness :
    comparison "a" .EQ (.number (Float64.ofBits 0 0)) ≠ .nil ∧
    Evaluate tableRuntime (Expr.grouped 3 (comparison "a" .EQ (.number (Float64.ofBits 0 0))))
      (paramsOf [("a", .number (Float64.ofBits 0 0))]) = .ok true ∧
    Evaluate tableRuntime (Expr.grouped 3 (comparison "a" .EQ (.number (Float64.ofBits 0 0))))
      (paramsOf [("a", .number (Float64.ofBits 0 0))])
      = Evaluate tableRuntime (comparison "a" .EQ (.number (Float64.ofBits 0 0)))
          (paramsOf [("a", .number (Float64.ofBits 0 0))]) :=
  ⟨by decide, by decide,
    (grouping_is_transparent tableRuntime (paramsOf [("a", .number (Float64.ofBits 0 0))])
      (comparison "a" .EQ (.number (Float64.ofBits 0 0))) 3 (by decide)).2.2.2⟩

theorem evaluate_ungroup {V : Type} (rt : Runtime V) (params : Params V) (expr : Expr) :
    evaluate rt expr params = evaluate rt expr.ungroup params := by
  induction expr with
  | parent e ih => simpa [Expr.ungroup, evaluate] using ih
  | nil => rfl
  | literal l => rfl
  | ident val => rfl
  | binary op lhs rhs _ _ => rfl

theorem evaluate_binary_is_bool {V : Type} (rt : Runtime V) (params : Params V) (op : Op)
    (lhs rhs : Expr) (v : Literal) (h : evaluate rt (.binary op lhs rhs) params = .ok v) :
    ∃ b : Bool, v = .bool b := by
  simp only [evaluate] at h
  cases hl : evaluate rt lhs params with
  | error err => simp [hl] at h
  | ok l =>
    cases hr : evaluate rt rhs params with
    | error err => simp [hl, hr] at h
    | ok r =>
      cases hc : compute rt op l r with
      | error err => simp [hl, hr, hc] at h
      | ok b =>
        simp only [hl, hr, hc, Except.ok.injEq] at h
        exact ⟨b, h.symm⟩

theorem ungroup_ne_parent (expr e : Expr) : expr.ungroup ≠ .parent e := by
  induction expr with
  | parent e0 ih => simpa [Expr.ungroup] using ih
  | nil => simp [Expr.ungroup]
  | literal l => simp [Expr.ungroup]
  | ident val => simp [Expr.ungroup]
  | binary op lhs rhs _ _ => simp [Expr.ungroup]

/-- C18 as stated fails: the tree that is the single variable reference `a`,
with `a` bound to the number 1, is no literal node and `Evaluate` fails on it
with "invalid result expression". -/
theorem result_type_error_on_variable_reference :
    Evaluate tableRuntime (.ident "a") (paramsOf [("a", .number (Float64.ofBits 0 0))])
      = .error (.errorsNew "invalid result expression") ∧
    ¬ ∃ l : Literal, Expr.ident "a" = .literal l :=
  ⟨by decide, by simp⟩

/-- C18, amended: the root check of `Evaluate` rejects a tree (the reduction
gives a non-Boolean literal, and `Evaluate` fails with
"invalid result expression") exactly when the tree, beneath any groupings, is a
non-Boolean literal node or a reference to a present parameter that converts to
a non-Boolean literal; a tree whose root beneath any groupings is a binary node
is never rejected by it, and `Evaluate` returns "invalid result expression" only
on a rejected tree or when the reduction itself failed with that error. -/
theorem result_type_error_trees {V : Type} (rt : Runtime V) (params : Params V)
    (expr : Expr) :
    ((∃ v : Literal, evaluate rt expr params = .ok v ∧ v.variant ≠ .bool) →
      Evaluate rt expr params = .error (.errorsNew "invalid result expression")) ∧
    (Evaluate rt expr params = .error (.errorsNew "invalid result expression") →
      (∃ v : Literal, evaluate rt expr params = .ok v ∧ v.variant ≠ .bool) ∨
      evaluate rt expr params = .error (.errorsNew "invalid result expression")) ∧
    ((∃ v : Literal, evaluate rt expr params = .ok v ∧ v.variant ≠ .bool) ↔
      (∃ l : Literal, expr.ungroup = .literal l ∧ l.variant ≠ .bool) ∨
      (∃ (name : String) (val : V) (l : Literal), expr.ungroup = .ident name ∧
        params name = some val ∧ rt.toLiteral val = .ok l ∧ l.variant ≠ .bool)) ∧
    (∀ (op : Op) (lhs rhs : Expr), expr.ungroup = .binary op lhs rhs →
      ¬ ∃ v : Literal, evaluate rt expr params = .ok v ∧ v.variant ≠ .bool) := by
  have hbin : ∀ (op : Op) (lhs rhs : Expr), expr.ungroup = .binary op lhs rhs →
      ¬ ∃ v : Literal, evaluate rt expr params = .ok v ∧ v.variant ≠ .bool := by
    rintro op lhs rhs hu ⟨v, hv, hvar⟩
    rw [evaluate_ungroup, hu] at hv
    obtain ⟨b, hb⟩ := evaluate_binary_is_bool rt params op lhs rhs v hv
    subst hb
    exact hvar rfl
  refine ⟨?_, ?_, ?_, hbin⟩
  · rintro ⟨v, hv, hvar⟩
    have hne : expr ≠ .nil := by
      intro h
      subst h
      simp [evaluate] at hv
    rw [Evaluate_of_ne_nil rt params expr hne, hv]
    cases v <;> simp_all [Literal.variant]
  · intro hE
    by_cases hne : expr = .nil
    · subst hne
      simp [Evaluate] at hE
    · rw [Evaluate_of_ne_nil rt params expr hne] at hE
      cases hv : evaluate rt expr params with
      | error err =>
        rw [hv] at hE
        simp only [Except.error.injEq] at hE
        exact Or.inr (by rw [hE])
      | ok v =>
        refine Or.inl ⟨v, rfl, ?_⟩
        rw [hv] at hE
        cases v <;> simp_all [Literal.variant]
  · rw [evaluate_ungroup]
    cases hu : expr.ungroup with
    | nil => simp [evaluate]
    | literal l => simp [evaluate]
    | ident name =>
      constructor
      · rintro ⟨v, hv, hvar⟩
        simp only [evaluate] at hv
        cases hp : params name with
        | none => simp [hp] at hv
        | some val =>
          rw [hp] at hv
          exact Or.inr ⟨name, val, v, rfl, hp, hv, hvar⟩
      · rintro (⟨l, hl, _⟩ | ⟨name0, val0, l, hn, hval, hl, hvar⟩)
        · cases hl
        · cases hn
          exact ⟨l, by simp [evaluate, hval, hl], hvar⟩
    | parent e => exact absurd hu (ungroup_ne_parent expr e)
    | binary op lhs rhs =>
      constructor
      · rintro ⟨v, hv, hvar⟩
        obtain ⟨b, hb⟩ := evaluate_binary_is_bool rt params op lhs rhs v hv
        subst hb
        exact absurd rfl hvar
      · simp

/-- C18, amended, at three trees: a grouped number literal and a reference to a
number parameter are rejected by the root check, a grouped comparison is not. -/
theorem result_type_error_trees_witness :
    ((∃ v : Literal, evaluate tableRuntime (.parent (.literal (.number (Float64.ofBits 0 0))))
        (paramsOf []) = .ok v ∧ v.variant ≠ .bool) ∧
      Evaluate tableRuntime (.parent (.literal (.number (Float64.ofBits 0 0)))) (paramsOf [])
        = .error (.errorsNew "invalid result expression")) ∧
    ((∃ v : Literal, evaluate tableRuntime (.ident "a")
        (paramsOf [("a", .number (Float64.ofBits 0 0))]) = .ok v ∧ v.variant ≠ .bool) ∧
      Evaluate tableRuntime (.ident "a") (paramsOf [("a", .number (Float64.ofBits 0 0))])
        = .error (.errorsNew "invalid result expression")) ∧
    ((Expr.parent (comparison "a" .EQ (.number (Float64.ofBits 0 0)))).ungroup
        = .binary .EQ (.ident "a") (.literal (.number (Float64.ofBits 0 0))) ∧
      ¬ ∃ v : Literal, evaluate tableRuntime
          (.parent (comparison "a" .EQ (.number (Float64.ofBits 0 0))))
          (paramsOf [("a", .number (Float64.ofBits 0 0))]) = .ok v ∧ v.variant ≠ .bool) :=
  have h1 : ∃ v : Literal, evaluate tableRuntime
      (.parent (.literal (.number (Float64.ofBits 0 0)))) (paramsOf []) = .ok v ∧
      v.variant ≠ .bool := ⟨.number (Float64.ofBits 0 0), by decide, by decide⟩
  have h2 : ∃ v : Literal, evaluate tableRuntime (.ident "a")
      (paramsOf [("a", .number (Float64.ofBits 0 0))]) = .ok v ∧ v.variant ≠ .bool :=
    ⟨.number (Float64.ofBits 0 0), by decide, by decide⟩
  ⟨⟨h1, (result_type_error_trees tableRuntime (paramsOf []) _).1 h1⟩,
    ⟨h2, (result_type_error_trees tableRuntime _ _).1 h2⟩,
    ⟨by decide, (result_type_error_trees tableRuntime _ _).2.2.2 .EQ (.ident "a")
      (.literal (.number (Float64.ofBits 0 0))) (by decide)⟩⟩

/-- C19: two duration literals cannot be compared: each of EQ, NEQ, LT, LTE,
GT, GTE fails on them with the cannot-convert error, equal durations included. -/
theorem duration_against_duration_fails {V : Type} (rt : Runtime V) (op : Op) (d v : Int)
    (hop : op.isComparison = true) :
    compute rt op (.duration d) (.duration v)
      = .error (.cannotConvert (.duration v) (.duration d)) := by
  cases op <;> simp only [Op.isComparison, Bool.false_eq_true] at hop <;> rfl

/-- C19 at two equal durations of 1m30s under EQ. -/
theorem duration_against_duration_fails_witness :
    Op.EQ.isComparison = true ∧
    compute tableRuntime .EQ (.duration 90000000000) (.duration 90000000000)
      = .error (.cannotConvert (.duration 90000000000) (.duration 90000000000)) :=
  ⟨by decide,
    duration_against_duration_fails tableRuntime .EQ 90000000000 90000000000 (by decide)⟩

theorem evaluate_congr_params {V : Type} (rt : Runtime V) (p q : Params V) (expr : Expr)
    (hagree : ∀ name : String, expr.mentions name = true → p name = q name) :
    evaluate rt expr p = evaluate rt expr q := by
  induction expr with
  | nil => rfl
  | literal l => rfl
  | ident val =>
    have h := hagree val (by simp [Expr.mentions])
    simp [evaluate, h]
  | parent e ih =>
    have h := ih (fun name hm => hagree name (by simpa [Expr.mentions] using hm))
    simpa [evaluate] using h
  | binary op lhs rhs ihl ihr =>
    have hl := ihl (fun name hm => hagree name (by simp [Expr.mentions, hm]))
    have hr := ihr (fun name hm => hagree name (by simp [Expr.mentions, hm]))
    simp only [evaluate, hl, hr]

/-- C20: two parameter mappings that agree, in presence and in value, on every
name that occurs in a variable reference of the tree give the same reduction
and the same result of `Evaluate`, verdict or error. -/
theorem verdict_depends_on_referenced_params {V : Type} (rt : Runtime V) (p q : Params V)
    (expr : Expr) (hagree : ∀ name : String, expr.mentions name = true → p name = q name) :
    evaluate rt expr p = evaluate rt expr q ∧ Evaluate rt expr p = Evaluate rt expr q := by
  have h := evaluate_congr_params rt p q expr hagree
  refine ⟨h, ?_⟩
  by_cases hne : expr = .nil
  · subst hne
    rfl
  · rw [Evaluate_of_ne_nil rt p expr hne, Evaluate_of_ne_nil rt q expr hne, h]

/-- C20 on the rule `a == 1` with two mappings that bind `a` to 1 and differ on
the unreferenced name `b`. -/
theorem verdict_depends_on_referenced_params_witness :
    (∀ name : String,
      (comparison "a" .EQ (.number (Float64.ofBits 0 0))).mentions name = true →
      paramsOf [("a", Literal.number (Float64.ofBits 0 0))] name
        = paramsOf [("b", .bool false), ("a", .number (Float64.ofBits 0 0))] name) ∧
    paramsOf [("a", Literal.number (Float64.ofBits 0 0))] "b"
      ≠ paramsOf [("b", .bool false), ("a", .number (Float64.ofBits 0 0))] "b" ∧
    Evaluate tableRuntime (comparison "a" .EQ (.number (Float64.ofBits 0 0)))
      (paramsOf [("a", .number (Float64.ofBits 0 0))]) = .ok true ∧
    Evaluate tableRuntime (comparison "a" .EQ (.number (Float64.ofBits 0 0)))
      (paramsOf [("a", .number (Float64.ofBits 0 0))])
      = Evaluate tableRuntime (comparison "a" .EQ (.number (Float64.ofBits 0 0)))
          (paramsOf [("b", .bool false), ("a", .number (Float64.ofBits 0 0))]) :=
  have hagree : ∀ name : String,
      (comparison "a" .EQ (.number (Float64.ofBits 0 0))).mentions name = true →
      paramsOf [("a", Literal.number (Float64.ofBits 0 0))] name
        = paramsOf [("b", .bool false), ("a", .number (Float64.ofBits 0 0))] name := by
    intro name hm
    simp only [comparison, Expr.mentions, Bool.or_false, beq_iff_eq] at hm
    subst hm
    decide
  ⟨hagree, by decide, by decide,
    (verdict_depends_on_referenced_params tableRuntime _ _ _ hagree).2⟩

end GoRules
